import Mathlib

/-!
Verification development for the VDFY backend (`src/server.js`).

The server is an Express application; each route handler is embedded as a
pure state-transformer over an explicit model of the external state it
touches: the object store (R2) is a key/value list of blobs, the document
store (Firestore `shortLinks` collection) is an association list from short
identifiers to field lists, and the local filesystem is a list of paths.
Outcomes of external calls (ffmpeg, the transcription service, storage
writes) are supplied as oracle values, and machine timestamps are `Nat`.
-/

namespace Vdfy

/-! ### JS string primitives used by the handlers -/

/-- Whitespace as trimmed by `String.prototype.trim` (restricted to the
characters that can occur in this code's data: space, tab, LF, CR). -/
def isJsWs (c : Char) : Bool :=
  c = ' ' || c = '\t' || c = '\n' || c = '\r'

/-- JS `trim` on a character list: drop whitespace from both ends. -/
def jsTrimList (l : List Char) : List Char :=
  ((l.dropWhile isJsWs).reverse.dropWhile isJsWs).reverse

/-- Source `s.trim()`. -/
def jsTrim (s : String) : String := String.mk (jsTrimList s.toList)

/-- The character class `[a-zA-Z0-9а-яА-ЯёЁіІїЇєЄ\-_ ]` of the `sanitize`
helper (`src/server.js` line 48): Latin letters, digits, the Cyrillic
ranges U+0430–U+044F and U+0410–U+042F, the letters ё/Ё/і/І/ї/Ї/є/Є,
hyphen, underscore and space. -/
def allowedChar (c : Char) : Bool :=
  ('a' ≤ c && c ≤ 'z') || ('A' ≤ c && c ≤ 'Z') || ('0' ≤ c && c ≤ '9') ||
  (0x430 ≤ c.toNat && c.toNat ≤ 0x44F) ||
  (0x410 ≤ c.toNat && c.toNat ≤ 0x42F) ||
  c.toNat = 0x451 || c.toNat = 0x401 ||
  c.toNat = 0x456 || c.toNat = 0x406 ||
  c.toNat = 0x457 || c.toNat = 0x407 ||
  c.toNat = 0x454 || c.toNat = 0x404 ||
  c = '-' || c = '_' || c = ' '

/-- Source `const sanitize = (str) => str.replace(/[^a-zA-Z0-9а-яА-ЯёЁіІїЇєЄ\-_ ]/g, '').trim()`
(`src/server.js` line 48). -/
def sanitize (s : String) : String :=
  jsTrim (String.mk (s.toList.filter allowedChar))

/-- JS `String.prototype.toLowerCase` on one character, modelled for the
repertoire this code handles: ASCII letters and the Cyrillic letters of
`allowedChar` (U+0410–U+042F map to U+0430–U+044F; Ё/І/Ї/Є map to their
lowercase forms). Other characters are unchanged. -/
def jsCharLower (c : Char) : Char :=
  if 'A' ≤ c && c ≤ 'Z' then Char.ofNat (c.toNat + 32)
  else if 0x410 ≤ c.toNat && c.toNat ≤ 0x42F then Char.ofNat (c.toNat + 0x20)
  else if c.toNat = 0x401 then Char.ofNat 0x451
  else if c.toNat = 0x406 then Char.ofNat 0x456
  else if c.toNat = 0x407 then Char.ofNat 0x457
  else if c.toNat = 0x404 then Char.ofNat 0x454
  else c

/-- Source `s.toLowerCase()`. -/
def jsToLower (s : String) : String := String.mk (s.toList.map jsCharLower)

/-- Source `s.replace(/[@.]/g, '_')`: every `@` or `.` becomes `_`. -/
def replaceAtDot (s : String) : String :=
  String.mk (s.toList.map fun c => if c = '@' || c = '.' then '_' else c)

/-- Source `s.startsWith(p)`. -/
def jsStartsWith (s p : String) : Bool := p.toList.isPrefixOf s.toList

/-- Source `s.endsWith(p)`. -/
def jsEndsWith (s p : String) : Bool := p.toList.isSuffixOf s.toList

/-- JS `String.prototype.replace` with a plain-string pattern replaces the
first occurrence only; recursion over the subject list. -/
def replaceFirstList (pat rep : List Char) : List Char → List Char
  | [] => []
  | c :: rest =>
    if pat.isPrefixOf (c :: rest) then rep ++ (c :: rest).drop pat.length
    else c :: replaceFirstList pat rep rest

/-- Source `s.replace(pat, rep)` for a plain-string `pat`. -/
def jsReplaceFirst (s pat rep : String) : String :=
  String.mk (replaceFirstList pat.toList rep.toList s.toList)

/-- Source `key.replace(/\.(mp4|webm)$/, '.txt')`: substitute a trailing `.mp4`
or `.webm` extension by `.txt`, otherwise leave the key unchanged
(used at `src/server.js` lines 154 and 185). -/
def textKeyOf (k : String) : String :=
  if jsEndsWith k ".mp4" then k.dropRight 4 ++ ".txt"
  else if jsEndsWith k ".webm" then k.dropRight 5 ++ ".txt"
  else k

/-- Source `s.substring(a, b)`: the characters in `[min a b, max a b)`, clamped
to the string's length. -/
def jsSubstring (s : String) (a b : Nat) : String :=
  String.mk ((s.toList.drop (min a b)).take (max a b - min a b))

/-! ### Key-space mapper (upload handler, `src/server.js` lines 94–108) -/

/-- Source `req.body.folder ? req.body.folder.toLowerCase() : "public"`:
a missing or empty `folder` field is falsy and collapses to `"public"`. -/
def ownerEmailOf (folder : Option String) : String :=
  match folder with
  | some f => if f = "" then "public" else jsToLower f
  | none => "public"

/-- Source `req.body.subfolder ? sanitize(req.body.subfolder) : "General"`:
the truthiness test inspects the raw field, before sanitizing. -/
def formNameOf (subfolder : Option String) : String :=
  match subfolder with
  | some s => if s = "" then "General" else sanitize s
  | none => "General"

/-- Source `emailFolder = ownerEmail.replace(/[@.]/g, '_')` applied after the
handlers' `toLowerCase()` call: the owner bucket segment. -/
def ownerBucket (email : String) : String := replaceAtDot (jsToLower email)

/-- Owner bucket as the spec words it: the owner identity string
case-folded to lowercase, with every `@` and `.` replaced by `_`
(spec §3, "Ownership normalization rule"). Stated separately from the
source-derived `ownerBucket` so the two can be compared. -/
def specOwnerBucket (o : String) : String :=
  String.mk ((jsToLower o).toList.map fun c =>
    if c = '@' || c = '.' then '_' else c)

/-- Source ``r2Key = `users/${emailFolder}/${formName}/rec_${Date.now()}.mp4` ``
(`src/server.js` line 108), with the owner/category fields resolved as in
lines 94–96. -/
def uploadR2Key (folder subfolder : Option String) (now : Nat) : String :=
  "users/" ++ replaceAtDot (ownerEmailOf folder) ++ "/" ++
    formNameOf subfolder ++ "/rec_" ++ toString now ++ ".mp4"

/-! ### External state: object store, document store, local filesystem -/

/-- A Firestore field value as written by these handlers: a string, or the
`FieldValue.serverTimestamp()` sentinel. -/
inductive FieldVal where
  | str : String → FieldVal
  | serverTimestamp : FieldVal
deriving Repr, DecidableEq

/-- A `shortLinks` document: the field list of the object literal passed to
`.set(...)`. -/
abbrev ShortLinkDoc := List (String × FieldVal)

/-- Read a string-valued field of a document (JS `doc.data().field`). -/
def getStr (doc : ShortLinkDoc) (field : String) : Option String :=
  match doc.lookup field with
  | some (.str v) => some v
  | _ => none

/-- The remote state the handlers touch: R2 blobs (key ↦ body) and the
Firestore `shortLinks` collection (short id ↦ document). -/
structure Store where
  blobs : List (String × String)
  shortLinks : List (String × ShortLinkDoc)
deriving Repr, DecidableEq

/-- Storage `PutObjectCommand`: write (or overwrite) the blob at `k`. -/
def putBlob (st : Store) (k body : String) : Store :=
  { st with blobs := (k, body) :: st.blobs.filter fun kv => ¬ kv.1 = k }

/-- Storage `DeleteObjectCommand`: remove the blob at `k` (no-op when absent). -/
def deleteBlob (st : Store) (k : String) : Store :=
  { st with blobs := st.blobs.filter fun kv => ¬ kv.1 = k }

/-- Source `db.collection('shortLinks').doc(id).set(doc)`: insert or overwrite. -/
def setDoc (st : Store) (id : String) (doc : ShortLinkDoc) : Store :=
  { st with shortLinks := (id, doc) :: st.shortLinks.filter fun kv => ¬ kv.1 = id }

/-- Source `db.collection('shortLinks').doc(id).get()`. -/
def lookupDoc (st : Store) (id : String) : Option ShortLinkDoc :=
  st.shortLinks.lookup id

/-- An HTTP response as produced by these handlers: a 200 JSON body given
as string-valued fields, or an error status with its `error` message, or a
redirect. -/
inductive HttpResp where
  | ok : List (String × String) → HttpResp
  | badRequest : String → HttpResp
  | forbidden : String → HttpResp
  | notFound : HttpResp
  | serverError : String → HttpResp
  | redirect : String → HttpResp
deriving Repr, DecidableEq

/-! ### Local filesystem (temp files) -/

/-- Source `fs.unlinkSync(p)`: fails (`none`) when the path does not exist,
otherwise removes it. -/
def unlinkSync (p : String) (fs : List String) : Option (List String) :=
  if p ∈ fs then some (fs.filter fun q => ¬ q = p) else none

/-- Source `if (fs.existsSync(p)) fs.unlinkSync(p)`: the guarded cleanup used on
every exit path of the upload handler (`src/server.js` lines 126–127 and
133–134). -/
def cleanupFile (p : String) (fs : List String) : List String :=
  if p ∈ fs then (unlinkSync p fs).getD fs else fs

/-! ### Upload handler (`POST /api/upload-with-ai`, `src/server.js` 86–137) -/

/-- Request data and oracle outcomes of the external calls made by one run
of the upload handler. `compressLeavesPartial` records whether a failing
ffmpeg run left a partial output file behind. -/
structure UploadOracle where
  fileProvided : Bool
  tempPath : String
  folder : Option String
  subfolder : Option String
  compressResult : Except String Unit
  compressLeavesPartial : Bool
  transcribeResult : Except String String
  putVideoResult : Except String Unit
  putTextResult : Except String Unit
  setDocResult : Except String Unit
  now : Nat
  shortId : String
  serverUrl : String
  r2PublicUrl : String
deriving Repr

/-- Placeholder body for the streamed compressed-video blob: the handler
pipes bytes it never inspects. -/
def videoBody : String := "<compressed video bytes>"

/-- The `catch`-block / success-path cleanup: both temp paths removed when
present (`src/server.js` lines 126–127, 133–134). -/
def cleanupTemps (tempPath compressedPath : String) (fs : List String) :
    List String :=
  cleanupFile compressedPath (cleanupFile tempPath fs)

/-- One run of the `POST /api/upload-with-ai` handler, returning the
response, the remote store, and the local filesystem. The initial `fs0`
already contains `tempPath` when a file was provided (multer wrote it
before the handler ran). -/
def uploadHandler (o : UploadOracle) (st : Store) (fs0 : List String) :
    HttpResp × Store × List String :=
  if o.fileProvided = false then (.badRequest "No file", st, fs0) else
  let ownerEmail := ownerEmailOf o.folder
  let tempPath := o.tempPath
  let compressedPath := tempPath ++ "_compressed.mp4"
  match o.compressResult with
  | .error e =>
    let fs1 := if o.compressLeavesPartial then compressedPath :: fs0 else fs0
    (.serverError e, st, cleanupTemps tempPath compressedPath fs1)
  | .ok _ =>
  let fs1 := compressedPath :: fs0
  match o.transcribeResult with
  | .error e => (.serverError e, st, cleanupTemps tempPath compressedPath fs1)
  | .ok text =>
  let r2Key := uploadR2Key o.folder o.subfolder o.now
  let longUrl := o.r2PublicUrl ++ "/" ++ r2Key
  match o.putVideoResult with
  | .error e => (.serverError e, st, cleanupTemps tempPath compressedPath fs1)
  | .ok _ =>
  let st1 := putBlob st r2Key videoBody
  match o.putTextResult with
  | .error e => (.serverError e, st1, cleanupTemps tempPath compressedPath fs1)
  | .ok _ =>
  let st2 := putBlob st1 (jsReplaceFirst r2Key ".mp4" ".txt") text
  let shortUrl := o.serverUrl ++ "/v/" ++ o.shortId
  match o.setDocResult with
  | .error e => (.serverError e, st2, cleanupTemps tempPath compressedPath fs1)
  | .ok _ =>
  let st3 := setDoc st2 o.shortId
    [("url", .str longUrl), ("r2Key", .str r2Key),
     ("createdAt", .serverTimestamp), ("email", .str ownerEmail)]
  (.ok [("publicUrl", shortUrl), ("transcription", text)], st3,
    cleanupTemps tempPath compressedPath fs1)

/-- All external calls of the upload pipeline succeed. -/
def UploadOracle.allOk (o : UploadOracle) : Prop :=
  o.fileProvided = true ∧ o.compressResult = .ok () ∧
  (∃ t, o.transcribeResult = .ok t) ∧ o.putVideoResult = .ok () ∧
  o.putTextResult = .ok () ∧ o.setDocResult = .ok ()

/-! ### Short-link resolver (`GET /v/:id`, `src/server.js` 67–73) -/

/-- Route `GET /v/:id`: look the document up; 404 when absent, else redirect to
its `url` field. (All documents written by this server carry a string
`url`; a document without one is mapped to a server error, matching the
handler's `catch`.) -/
def resolveShortLink (st : Store) (id : String) : HttpResp :=
  match lookupDoc st id with
  | none => .notFound
  | some doc =>
    match getStr doc "url" with
    | some u => .redirect u
    | none => .serverError "Server Error"

/-! ### Delete handler (`DELETE /api/delete-video`, `src/server.js` 167–210) -/

/-- Oracle outcomes for the two `DeleteObjectCommand` calls. -/
structure DeleteOracle where
  delVideoResult : Except String Unit
  delTextResult : Except String Unit
deriving Repr

/-- One run of the `DELETE /api/delete-video` handler: ownership guard,
media-blob delete (failure → 500), best-effort text-blob delete, then
short-link cleanup by `r2Key` with a fallback lookup by long URL. -/
def deleteVideoHandler (email videoKey : String) (orc : DeleteOracle)
    (r2PublicUrl : String) (st : Store) : HttpResp × Store :=
  let emailFolder := ownerBucket email
  if ¬ jsStartsWith videoKey ("users/" ++ emailFolder ++ "/") then
    (.forbidden "Access Denied", st)
  else
    match orc.delVideoResult with
    | .error e => (.serverError e, st)
    | .ok _ =>
    let st1 := deleteBlob st videoKey
    let st2 :=
      match orc.delTextResult with
      | .ok _ => deleteBlob st1 (textKeyOf videoKey)
      | .error _ => st1
    let byKey := st2.shortLinks.filter fun kv => getStr kv.2 "r2Key" = some videoKey
    let st3 :=
      if byKey.isEmpty = false then
        { st2 with shortLinks :=
            st2.shortLinks.filter fun kv => ¬ getStr kv.2 "r2Key" = some videoKey }
      else
        let longUrl := r2PublicUrl ++ "/" ++ videoKey
        { st2 with shortLinks :=
            st2.shortLinks.filter fun kv => ¬ getStr kv.2 "url" = some longUrl }
    (.ok [("success", "true")], st3)

/-! ### List handler (`GET /api/my-videos`, `src/server.js` 140–164) -/

/-- Hexadecimal digit value, for percent-escapes. -/
def hexVal (c : Char) : Option Nat :=
  if '0' ≤ c && c ≤ '9' then some (c.toNat - 48)
  else if 'a' ≤ c && c ≤ 'f' then some (c.toNat - 87)
  else if 'A' ≤ c && c ≤ 'F' then some (c.toNat - 55)
  else none

/-- JS `decodeURIComponent`, modelled for single-byte escapes: `%XY` with hex
digits decodes to the character with that code; other characters pass
through. (Multi-byte UTF-8 escape sequences do not occur in keys written
by this server, whose `sanitize` strips `%`.) -/
def decodeURIComp : List Char → List Char
  | [] => []
  | '%' :: a :: b :: rest =>
    match hexVal a, hexVal b with
    | some x, some y => Char.ofNat (16 * x + y) :: decodeURIComp rest
    | _, _ => '%' :: decodeURIComp (a :: b :: rest)
  | c :: rest => c :: decodeURIComp rest

/-- One object returned by `ListObjectsV2`: its key and `LastModified`
timestamp (as a number, matching the JS `Date` arithmetic in the sort). -/
structure S3Obj where
  key : String
  lastModified : Nat
deriving Repr, DecidableEq

/-- One entry of the `videos` array of `GET /api/my-videos`. -/
structure VideoEntry where
  key : String
  url : String
  textUrl : String
  uploadedAt : Nat
  formName : String
deriving Repr, DecidableEq

/-- The map body of `src/server.js` lines 148–158: keep media keys, parse
the category out of path segment 2 when the key has more than three
segments, and derive `url`/`textUrl` from the public base URL. -/
def mkVideoEntry (r2PublicUrl : String) (i : S3Obj) : VideoEntry :=
  let parts := i.key.splitOn "/"
  let formName :=
    if parts.length > 3 then String.mk (decodeURIComp (parts.getD 2 "").toList)
    else "General"
  { key := i.key
    url := r2PublicUrl ++ "/" ++ i.key
    textUrl := r2PublicUrl ++ "/" ++ textKeyOf i.key
    uploadedAt := i.lastModified
    formName := formName }

/-- The sort comparator `(a, b) => b.uploadedAt - a.uploadedAt`: `a` may
precede `b` exactly when the comparator is `≤ 0`, i.e. when
`b.uploadedAt ≤ a.uploadedAt`. -/
def videoLe (a b : VideoEntry) : Bool := b.uploadedAt ≤ a.uploadedAt

/-- The body of `GET /api/my-videos` after a successful enumeration:
filter to `.mp4`/`.webm` keys, build entries, sort descending by upload
time (`src/server.js` lines 148–159). -/
def myVideosList (r2PublicUrl : String) (contents : List S3Obj) :
    List VideoEntry :=
  (((contents.filter fun i =>
      jsEndsWith i.key ".mp4" || jsEndsWith i.key ".webm").map
    (mkVideoEntry r2PublicUrl)).mergeSort videoLe)

/-- One run of the `GET /api/my-videos` handler. `emailField` is the
(possibly absent) `email` claim of the verified token; the returned flag
records whether the storage enumeration (`ListObjectsV2Command`) was
issued. The handler replies 200 with `{ videos }` on every path
(`src/server.js` lines 140–164). -/
def myVideosHandler (emailField : Option String) (r2PublicUrl : String)
    (contents : List S3Obj) : List VideoEntry × Bool :=
  let email :=
    match emailField with
    | some s => if s = "" then none else some (jsToLower s)
    | none => none
  match email with
  | none => ([], false)
  | some _ => (myVideosList r2PublicUrl contents, true)

/-! ### Short-id generator (`src/server.js` line 49) -/

/-- Base-36 digit character, as produced by `Number.prototype.toString(36)`
(digits then lowercase letters). -/
def base36Char (d : Nat) : Char :=
  if d < 10 then Char.ofNat (48 + d) else Char.ofNat (87 + d)

/-- Source `r.toString(36)` for `r = Math.random() ∈ [0, 1)`, the value modelled
by its finite list of fractional base-36 digits as printed (trailing
zeros trimmed; the empty list stands for `r = 0`, printed `"0"`). -/
def numToString36 (ds : List Nat) : String :=
  if ds.isEmpty then "0" else "0." ++ String.mk (ds.map base36Char)

/-- Source `generateShortId = () => Math.random().toString(36).substring(2, 8)`. -/
def generateShortId (ds : List Nat) : String :=
  jsSubstring (numToString36 ds) 2 8

/-- Whether a response is a 500-class error. -/
def isServerError : HttpResp → Bool
  | .serverError _ => true
  | _ => false

/-! ### Concrete instances used in witnesses and counterexamples -/

/-- Remote state with no blobs and no short links. -/
def emptyStore : Store := { blobs := [], shortLinks := [] }

/-- A fully successful upload request. -/
def okOracle : UploadOracle :=
  { fileProvided := true
    tempPath := "uploads/abc"
    folder := some "User@Example.com"
    subfolder := some "Intro"
    compressResult := .ok ()
    compressLeavesPartial := false
    transcribeResult := .ok "hello world"
    putVideoResult := .ok ()
    putTextResult := .ok ()
    setDocResult := .ok ()
    now := 1700000000000
    shortId := "abc123"
    serverUrl := "http://h"
    r2PublicUrl := "https://pub" }

/-- The same request without a file: validation fails. -/
def noFileOracle : UploadOracle := { okOracle with fileProvided := false }

/-- The same request with a failing transcode step that leaves a partial
output file behind. -/
def failCompressOracle : UploadOracle :=
  { okOracle with compressResult := .error "ffmpeg exited with code 1"
                  compressLeavesPartial := true }

/-! ## Theorems -/

/-- Claim C1 — a delete request whose `videoKey` does not start with
`users/<ownerBucket>/` for the caller's normalized identity returns 403
Forbidden and leaves the whole store (media blobs, text blobs, short-link
records) untouched. -/
theorem delete_foreign_key_forbidden_no_mutation
    (email videoKey : String) (orc : DeleteOracle) (r2pub : String)
    (st : Store)
    (h : ¬ jsStartsWith videoKey ("users/" ++ ownerBucket email ++ "/") = true) :
    deleteVideoHandler email videoKey orc r2pub st =
      (HttpResp.forbidden "Access Denied", st) := by
  simp [deleteVideoHandler, h]

/-- Witness for C1: the spec's scenario — caller `user@example.com`,
key `users/other_user/x/rec_1.mp4`. -/
theorem delete_foreign_key_forbidden_no_mutation_ex :
    (¬ jsStartsWith "users/other_user/x/rec_1.mp4"
        ("users/" ++ ownerBucket "user@example.com" ++ "/") = true) ∧
    deleteVideoHandler "user@example.com" "users/other_user/x/rec_1.mp4"
        ⟨.ok (), .ok ()⟩ "https://pub"
        { blobs := [("users/other_user/x/rec_1.mp4", "v")], shortLinks := [] } =
      (HttpResp.forbidden "Access Denied",
        { blobs := [("users/other_user/x/rec_1.mp4", "v")], shortLinks := [] }) :=
  ⟨by decide,
   delete_foreign_key_forbidden_no_mutation "user@example.com"
     "users/other_user/x/rec_1.mp4" ⟨.ok (), .ok ()⟩ "https://pub"
     { blobs := [("users/other_user/x/rec_1.mp4", "v")], shortLinks := [] }
     (by decide)⟩

/-- Claim C2 — with a provided owner identity `o` and category `c`, the
key the upload handler computes is
`users/<b>/<c>/rec_<unixMillis>.mp4` where `b` lowercases `o` and maps
`@`/`.` to `_` (the spec's normalization rule, `specOwnerBucket`) and the
category segment is `sanitize c`. -/
theorem upload_key_shape (o c : String) (t : Nat)
    (ho : ¬ o = "") (hc : ¬ c = "") :
    uploadR2Key (some o) (some c) t =
      "users/" ++ specOwnerBucket o ++ "/" ++ sanitize c ++ "/rec_" ++
        toString t ++ ".mp4" ∧
    replaceAtDot (jsToLower o) = specOwnerBucket o := by
  constructor
  · simp [uploadR2Key, ownerEmailOf, formNameOf, ho, hc, specOwnerBucket,
      replaceAtDot, jsToLower]
  · simp [specOwnerBucket, replaceAtDot, jsToLower]

/-- Witness for C2: the spec's scenario — owner `user@example.com`,
category `Intro`, a concrete timestamp. -/
theorem upload_key_shape_ex :
    uploadR2Key (some "user@example.com") (some "Intro") 1700000000000 =
      "users/user_example_com/Intro/rec_1700000000000.mp4" := by
  rw [(upload_key_shape "user@example.com" "Intro" 1700000000000
    (by decide) (by decide)).1]
  decide

/-- Claim C10 — a verified token carrying no email makes `my-videos`
return `{ videos: [] }` without issuing the storage enumeration. -/
theorem my_videos_no_email_empty_no_enumeration
    (r2pub : String) (contents : List S3Obj) :
    myVideosHandler none r2pub contents = ([], false) := rfl

/-- Claim C7 — the `videos` array returned by `my-videos` is sorted in
descending order of `uploadedAt`, for any contents the enumeration
returns. -/
theorem my_videos_sorted_descending (emailField : Option String)
    (r2pub : String) (contents : List S3Obj) :
    ((myVideosHandler emailField r2pub contents).1).Pairwise
      fun a b => b.uploadedAt ≤ a.uploadedAt := by
  have hs : ∀ l : List S3Obj,
      (myVideosList r2pub l).Pairwise fun a b => b.uploadedAt ≤ a.uploadedAt := by
    intro l
    have h := @List.sorted_mergeSort VideoEntry videoLe
      (fun a b c hab hbc => by
        simp only [videoLe, decide_eq_true_eq] at hab hbc ⊢; omega)
      (fun a b => by
        simp only [videoLe, Bool.or_eq_true, decide_eq_true_eq]; omega)
      ((l.filter fun i =>
          jsEndsWith i.key ".mp4" || jsEndsWith i.key ".webm").map
        (mkVideoEntry r2pub))
    exact h.imp fun hab => by
      simpa [videoLe, decide_eq_true_eq] using hab
  unfold myVideosHandler
  cases emailField with
  | none => simp
  | some s =>
    by_cases hse : s = "" <;> simp [hse, hs]

/-- Lemma `cleanupFile` removes every occurrence of the path it is given. -/
theorem cleanupFile_not_mem (p : String) (fs : List String) :
    ¬ p ∈ cleanupFile p fs := by
  unfold cleanupFile unlinkSync
  by_cases h : p ∈ fs <;> simp [h]

/-- Lemma `cleanupFile` never adds paths. -/
theorem cleanupFile_not_mem_of_not_mem (p q : String) (fs : List String)
    (h : ¬ q ∈ fs) : ¬ q ∈ cleanupFile p fs := by
  unfold cleanupFile unlinkSync
  by_cases hp : p ∈ fs <;> simp_all

/-- Neither temp path survives the handler's cleanup pair. -/
theorem cleanupTemps_not_mem (t c : String) (fs : List String) :
    ¬ t ∈ cleanupTemps t c fs ∧ ¬ c ∈ cleanupTemps t c fs :=
  ⟨cleanupFile_not_mem_of_not_mem c t _ (cleanupFile_not_mem t fs),
   cleanupFile_not_mem c _⟩

/-- When a file was provided, every exit path of the upload handler ends
in the cleanup pair applied to some intermediate filesystem. -/
theorem uploadHandler_fs_shape (o : UploadOracle) (st : Store)
    (fs0 : List String) (h : o.fileProvided = true) :
    ∃ fs1, (uploadHandler o st fs0).2.2 =
      cleanupTemps o.tempPath (o.tempPath ++ "_compressed.mp4") fs1 := by
  unfold uploadHandler
  simp only [h]
  cases hcp : o.compressResult <;>
    cases htr : o.transcribeResult <;>
    cases hv : o.putVideoResult <;>
    cases ht : o.putTextResult <;>
    cases hd : o.setDocResult <;>
    exact ⟨_, rfl⟩

/-- Claim C3 — for every upload request that provides a file, after the
handler terminates (success or error) neither the original upload path
nor the `_compressed.mp4` path remains on disk, and the guarded cleanup
step tolerates a path that does not exist (it skips the `unlinkSync`
call, which would fail there). -/
theorem upload_temp_files_cleaned (o : UploadOracle) (st : Store)
    (fs0 : List String) (h : o.fileProvided = true) :
    (¬ o.tempPath ∈ (uploadHandler o st fs0).2.2 ∧
     ¬ (o.tempPath ++ "_compressed.mp4") ∈ (uploadHandler o st fs0).2.2) ∧
    (∀ (p : String) (fs : List String), ¬ p ∈ fs →
      unlinkSync p fs = none ∧ cleanupFile p fs = fs) := by
  refine ⟨?_, ?_⟩
  · obtain ⟨fs1, hfs⟩ := uploadHandler_fs_shape o st fs0 h
    rw [hfs]
    exact cleanupTemps_not_mem _ _ _
  · intro p fs hp
    constructor
    · simp [unlinkSync, hp]
    · simp [cleanupFile, hp]

/-- Witness for C3: a concrete run whose transcode step fails leaving a
partial output file; both temp files are absent afterwards, and cleanup
of a missing path is a no-op. -/
theorem upload_temp_files_cleaned_ex :
    (¬ "uploads/abc" ∈
        (uploadHandler failCompressOracle emptyStore ["uploads/abc"]).2.2 ∧
     ¬ "uploads/abc_compressed.mp4" ∈
        (uploadHandler failCompressOracle emptyStore ["uploads/abc"]).2.2) ∧
    (unlinkSync "gone.mp4" [] = none ∧ cleanupFile "gone.mp4" [] = []) := by
  have h := upload_temp_files_cleaned failCompressOracle emptyStore
    ["uploads/abc"] (by decide)
  exact ⟨h.1, h.2 "gone.mp4" [] (by decide)⟩

/-- Reading back the document a `setDoc` just wrote. -/
theorem lookupDoc_setDoc (st : Store) (id : String) (doc : ShortLinkDoc) :
    lookupDoc (setDoc st id doc) id = some doc := by
  simp [lookupDoc, setDoc, List.lookup]

/-- Counterexample to claim C4 as stated: when the validation step fails
(no file), the response is 400 `No file`, not a 500-class error. -/
theorem upload_validation_failure_is_400 :
    (uploadHandler noFileOracle emptyStore []).1 = .badRequest "No file" ∧
    isServerError (uploadHandler noFileOracle emptyStore []).1 = false := by
  constructor <;> rfl

/-- Claim C4, amended — validation failure returns 400 `No file` with no
store change; failure of any later mandatory step (transcode,
transcription, either blob write, short-link write) returns a 500-class
error carrying the failure's message with no short-link record created;
full success creates the record and answers
`{ publicUrl, transcription }`. -/
theorem upload_pipeline_semantics (o : UploadOracle) (st : Store)
    (fs0 : List String) :
    (o.fileProvided = false →
      (uploadHandler o st fs0).1 = .badRequest "No file" ∧
      (uploadHandler o st fs0).2.1 = st) ∧
    (∀ e, o.fileProvided = true → o.compressResult = .error e →
      (uploadHandler o st fs0).1 = .serverError e ∧
      (uploadHandler o st fs0).2.1.shortLinks = st.shortLinks) ∧
    (∀ e, o.fileProvided = true → o.compressResult = .ok () →
      o.transcribeResult = .error e →
      (uploadHandler o st fs0).1 = .serverError e ∧
      (uploadHandler o st fs0).2.1.shortLinks = st.shortLinks) ∧
    (∀ e t, o.fileProvided = true → o.compressResult = .ok () →
      o.transcribeResult = .ok t → o.putVideoResult = .error e →
      (uploadHandler o st fs0).1 = .serverError e ∧
      (uploadHandler o st fs0).2.1.shortLinks = st.shortLinks) ∧
    (∀ e t, o.fileProvided = true → o.compressResult = .ok () →
      o.transcribeResult = .ok t → o.putVideoResult = .ok () →
      o.putTextResult = .error e →
      (uploadHandler o st fs0).1 = .serverError e ∧
      (uploadHandler o st fs0).2.1.shortLinks = st.shortLinks) ∧
    (∀ e t, o.fileProvided = true → o.compressResult = .ok () →
      o.transcribeResult = .ok t → o.putVideoResult = .ok () →
      o.putTextResult = .ok () → o.setDocResult = .error e →
      (uploadHandler o st fs0).1 = .serverError e ∧
      (uploadHandler o st fs0).2.1.shortLinks = st.shortLinks) ∧
    (∀ t, o.fileProvided = true → o.compressResult = .ok () →
      o.transcribeResult = .ok t → o.putVideoResult = .ok () →
      o.putTextResult = .ok () → o.setDocResult = .ok () →
      (uploadHandler o st fs0).1 =
        .ok [("publicUrl", o.serverUrl ++ "/v/" ++ o.shortId),
             ("transcription", t)] ∧
      lookupDoc (uploadHandler o st fs0).2.1 o.shortId =
        some [("url", .str (o.r2PublicUrl ++ "/" ++
                  uploadR2Key o.folder o.subfolder o.now)),
              ("r2Key", .str (uploadR2Key o.folder o.subfolder o.now)),
              ("createdAt", .serverTimestamp),
              ("email", .str (ownerEmailOf o.folder))]) := by
  refine ⟨?_, ?_, ?_, ?_, ?_, ?_, ?_⟩
  · intro h; simp [uploadHandler, h]
  · intro e hf hc; simp [uploadHandler, hf, hc]
  · intro e hf hc ht; simp [uploadHandler, hf, hc, ht]
  · intro e t hf hc ht hv; simp [uploadHandler, hf, hc, ht, hv]
  · intro e t hf hc ht hv hx
    simp [uploadHandler, hf, hc, ht, hv, hx, putBlob]
  · intro e t hf hc ht hv hx hd
    simp [uploadHandler, hf, hc, ht, hv, hx, hd, putBlob]
  · intro t hf hc ht hv hx hd
    constructor
    · simp [uploadHandler, hf, hc, ht, hv, hx, hd]
    · simp [uploadHandler, hf, hc, ht, hv, hx, hd, lookupDoc_setDoc]

/-- Witness for C4: the fully successful concrete run — the record exists
and the response carries the short URL and the transcript. -/
theorem upload_pipeline_semantics_ex :
    (uploadHandler okOracle emptyStore ["uploads/abc"]).1 =
      .ok [("publicUrl", "http://h/v/abc123"),
           ("transcription", "hello world")] ∧
    lookupDoc (uploadHandler okOracle emptyStore ["uploads/abc"]).2.1
        "abc123" =
      some [("url",
              .str "https://pub/users/user_example_com/Intro/rec_1700000000000.mp4"),
            ("r2Key",
              .str "users/user_example_com/Intro/rec_1700000000000.mp4"),
            ("createdAt", .serverTimestamp),
            ("email", .str "user@example.com")] := by
  have h := (upload_pipeline_semantics okOracle emptyStore
    ["uploads/abc"]).2.2.2.2.2.2 "hello world" rfl rfl rfl rfl rfl rfl
  exact ⟨h.1, h.2⟩

/-- Counterexample to claim C5 as stated: in a concrete fully successful
upload the response and the text blob carry the service's transcript
(`hello world`), but the stored short-link record has no transcription
field at all — the transcript is not stored in the record. -/
theorem upload_record_has_no_transcript_field :
    (uploadHandler okOracle emptyStore ["uploads/abc"]).1 =
      .ok [("publicUrl", "http://h/v/abc123"),
           ("transcription", "hello world")] ∧
    getStr ((lookupDoc (uploadHandler okOracle emptyStore
        ["uploads/abc"]).2.1 "abc123").getD []) "transcription" = none := by
  constructor <;> rfl

/-- Claim C5, amended — on success the `transcription` field of the
response is exactly the text the transcription service returned, and the
same text is the body written to the transcript blob; the short-link
record stores the URL, the storage key and the owner, but not the
transcript. -/
theorem upload_transcript_text_flow (o : UploadOracle) (st : Store)
    (fs0 : List String) (t : String)
    (hf : o.fileProvided = true) (hc : o.compressResult = .ok ())
    (ht : o.transcribeResult = .ok t) (hv : o.putVideoResult = .ok ())
    (hx : o.putTextResult = .ok ()) (hd : o.setDocResult = .ok ()) :
    (uploadHandler o st fs0).1 =
      .ok [("publicUrl", o.serverUrl ++ "/v/" ++ o.shortId),
           ("transcription", t)] ∧
    ((uploadHandler o st fs0).2.1.blobs.lookup
        (jsReplaceFirst (uploadR2Key o.folder o.subfolder o.now)
          ".mp4" ".txt")) = some t ∧
    getStr ((lookupDoc (uploadHandler o st fs0).2.1 o.shortId).getD [])
      "transcription" = none := by
  refine ⟨?_, ?_, ?_⟩
  · simp [uploadHandler, hf, hc, ht, hv, hx, hd]
  · simp [uploadHandler, hf, hc, ht, hv, hx, hd, setDoc, putBlob,
      List.lookup]
  · simp [uploadHandler, hf, hc, ht, hv, hx, hd, lookupDoc_setDoc, getStr,
      List.lookup]

/-- Witness for C5 (amended) at the concrete successful run. -/
theorem upload_transcript_text_flow_ex :
    (uploadHandler okOracle emptyStore ["uploads/abc"]).1 =
      .ok [("publicUrl", "http://h/v/abc123"),
           ("transcription", "hello world")] ∧
    ((uploadHandler okOracle emptyStore ["uploads/abc"]).2.1.blobs.lookup
        "users/user_example_com/Intro/rec_1700000000000.txt") =
      some "hello world" := by
  have h := upload_transcript_text_flow okOracle emptyStore ["uploads/abc"]
    "hello world" rfl rfl rfl rfl rfl rfl
  exact ⟨h.1, h.2.1⟩

/-- Claim C8 — a short-link record, looked up while it exists, resolves to
a redirect at exactly its stored `url` field; and for a record just
created by a successful upload, that field — and hence the redirect — is
exactly the long storage URL the upload stored. -/
theorem shortlink_roundtrip (o : UploadOracle) (st : Store)
    (fs0 : List String) (t : String)
    (hf : o.fileProvided = true) (hc : o.compressResult = .ok ())
    (ht : o.transcribeResult = .ok t) (hv : o.putVideoResult = .ok ())
    (hx : o.putTextResult = .ok ()) (hd : o.setDocResult = .ok ()) :
    (∀ (st2 : Store) (id : String) (doc : ShortLinkDoc) (u : String),
      lookupDoc st2 id = some doc → getStr doc "url" = some u →
      resolveShortLink st2 id = .redirect u) ∧
    getStr ((lookupDoc (uploadHandler o st fs0).2.1 o.shortId).getD [])
        "url" =
      some (o.r2PublicUrl ++ "/" ++ uploadR2Key o.folder o.subfolder o.now) ∧
    resolveShortLink (uploadHandler o st fs0).2.1 o.shortId =
      .redirect (o.r2PublicUrl ++ "/" ++
        uploadR2Key o.folder o.subfolder o.now) := by
  refine ⟨?_, ?_, ?_⟩
  · intro st2 id doc u h1 h2
    simp [resolveShortLink, h1, h2]
  · simp [uploadHandler, hf, hc, ht, hv, hx, hd, lookupDoc_setDoc, getStr,
      List.lookup]
  · simp [uploadHandler, hf, hc, ht, hv, hx, hd, resolveShortLink,
      lookupDoc_setDoc, getStr, List.lookup]

/-- Witness for C8 at the concrete successful run: the resolver redirects
to the stored long URL. -/
theorem shortlink_roundtrip_ex :
    getStr ((lookupDoc (uploadHandler okOracle emptyStore
        ["uploads/abc"]).2.1 "abc123").getD []) "url" =
      some "https://pub/users/user_example_com/Intro/rec_1700000000000.mp4" ∧
    resolveShortLink (uploadHandler okOracle emptyStore
        ["uploads/abc"]).2.1 "abc123" =
      .redirect
        "https://pub/users/user_example_com/Intro/rec_1700000000000.mp4" := by
  have h := shortlink_roundtrip okOracle emptyStore ["uploads/abc"]
    "hello world" rfl rfl rfl rfl rfl rfl
  exact ⟨h.2.1, h.2.2⟩

/-- The first character of a trimmed list is not whitespace. -/
theorem jsTrimList_head_not_ws (l : List Char) (c : Char)
    (h : (jsTrimList l).head? = some c) : isJsWs c = false := by
  unfold jsTrimList at h
  rw [List.head?_reverse] at h
  obtain ⟨s, hs⟩ := List.dropWhile_suffix (l := (l.dropWhile isJsWs).reverse)
    (p := isJsWs)
  have hr : ((l.dropWhile isJsWs).reverse).getLast? = some c := by
    rw [← hs, List.getLast?_append, h]; rfl
  rw [List.getLast?_reverse] at hr
  have := List.head?_dropWhile_not isJsWs l
  rw [hr] at this
  exact this

/-- The last character of a trimmed list is not whitespace. -/
theorem jsTrimList_getLast_not_ws (l : List Char) (c : Char)
    (h : (jsTrimList l).getLast? = some c) : isJsWs c = false := by
  unfold jsTrimList at h
  rw [List.getLast?_reverse] at h
  have := List.head?_dropWhile_not isJsWs ((l.dropWhile isJsWs).reverse)
  rw [h] at this
  exact this

/-- Trimming only removes characters. -/
theorem mem_of_mem_jsTrimList (l : List Char) (c : Char)
    (h : c ∈ jsTrimList l) : c ∈ l := by
  unfold jsTrimList at h
  rw [List.mem_reverse] at h
  have h1 := List.dropWhile_subset (l := (l.dropWhile isJsWs).reverse)
    isJsWs h
  rw [List.mem_reverse] at h1
  exact List.dropWhile_subset isJsWs h1

/-- Counterexample to claim C6 as stated: the category `"!!!"` is truthy,
so the handler sanitizes it to the empty string and uses it — the storage
key gets an empty category segment instead of `General`. -/
theorem empty_sanitized_category_used_verbatim :
    sanitize "!!!" = "" ∧ formNameOf (some "!!!") = "" ∧
    ¬ formNameOf (some "!!!") = "General" ∧
    uploadR2Key (some "a@b.c") (some "!!!") 5 = "users/a_b_c//rec_5.mp4" := by
  refine ⟨rfl, rfl, by decide, rfl⟩

/-- Claim C6, amended — `sanitize` keeps only allow-listed characters and
trims whitespace from both ends; an absent or empty (falsy) category
field collapses to `General`, while a present non-empty field is used
sanitized even when sanitization leaves it empty. -/
theorem category_sanitization_and_default (s : String) :
    (∀ c ∈ (sanitize s).toList, allowedChar c = true) ∧
    (∀ c, (sanitize s).toList.head? = some c → isJsWs c = false) ∧
    (∀ c, (sanitize s).toList.getLast? = some c → isJsWs c = false) ∧
    formNameOf none = "General" ∧ formNameOf (some "") = "General" ∧
    (∀ u : String, ¬ u = "" → formNameOf (some u) = sanitize u) := by
  have htl : (sanitize s).toList = jsTrimList (s.toList.filter allowedChar) := rfl
  refine ⟨?_, ?_, ?_, rfl, rfl, ?_⟩
  · intro c hc
    rw [htl] at hc
    exact (List.mem_filter.mp (mem_of_mem_jsTrimList _ _ hc)).2
  · intro c hc
    rw [htl] at hc
    exact jsTrimList_head_not_ws _ _ hc
  · intro c hc
    rw [htl] at hc
    exact jsTrimList_getLast_not_ws _ _ hc
  · intro u hu
    simp [formNameOf, hu]

/-- Witness for C6 (amended): a present non-empty category is sanitized;
an absent one defaults. -/
theorem category_sanitization_and_default_ex :
    formNameOf (some "  Intro!  ") = sanitize "  Intro!  " ∧
    formNameOf none = "General" := by
  have h := category_sanitization_and_default "  Intro!  "
  exact ⟨h.2.2.2.2.2 "  Intro!  " (by decide), h.2.2.2.1⟩

/-- Counterexample to claim C9 as stated: the generator's output length is
not one fixed constant — the base-36 expansion of `0.5` is `"0.i"`, whose
`substring(2, 8)` has length 1, while a value with six or more fractional
digits yields length 6. -/
theorem short_id_length_not_fixed :
    ([18].all fun d => d < 36) = true ∧
    ([1, 2, 3, 4, 5, 6].all fun d => d < 36) = true ∧
    (generateShortId [18]).length = 1 ∧
    (generateShortId [1, 2, 3, 4, 5, 6]).length = 6 ∧
    ¬ (generateShortId [18]).length =
        (generateShortId [1, 2, 3, 4, 5, 6]).length := by
  refine ⟨rfl, rfl, rfl, rfl, by decide⟩

/-- Claim C9, amended — every generated short identifier has length at
most 6 (not a fixed constant), and each of its characters is a digit or
a lowercase letter. -/
theorem short_id_charset_and_max_length (ds : List Nat)
    (h : ∀ d ∈ ds, d < 36) :
    (generateShortId ds).length ≤ 6 ∧
    ∀ c ∈ (generateShortId ds).toList,
      ('0' ≤ c ∧ c ≤ '9') ∨ ('a' ≤ c ∧ c ≤ 'z') := by
  unfold generateShortId jsSubstring numToString36
  cases ds with
  | nil => exact ⟨by decide, by decide⟩
  | cons d ds' =>
    have hlist : (("0." ++ String.mk ((d :: ds').map base36Char)).toList) =
        '0' :: '.' :: (d :: ds').map base36Char := by
      simp [String.toList]
    constructor
    · simp only [List.isEmpty_cons, if_neg, Bool.false_eq_true,
        not_false_eq_true, hlist]
      simp [String.length]
    · intro c hc
      simp only [List.isEmpty_cons, Bool.false_eq_true, if_false,
        hlist] at hc
      simp only [String.toList] at hc
      have hc2 : c ∈ (((d :: ds').map base36Char).take 6) := by
        simpa using hc
      have hc3 : c ∈ ((d :: ds').map base36Char) :=
        List.take_subset 6 _ hc2
      obtain ⟨d0, hd0, rfl⟩ := List.mem_map.mp hc3
      have hd36 : d0 < 36 := h d0 hd0
      unfold base36Char
      interval_cases d0 <;> simp

/-- Witness for C9 (amended) at a concrete three-digit expansion. -/
theorem short_id_charset_and_max_length_ex :
    (generateShortId [35, 0, 10]).length ≤ 6 :=
  (short_id_charset_and_max_length [35, 0, 10] (by decide)).1

end Vdfy
